/-
Verification of the frequency/aliasing computation engine of the
gnssPeriodCalculator repository (src/gnss_frequencies.py).

The Python code works on IEEE doubles; the embedding models the arithmetic
over ℚ (exact rationals), with Python's `float('inf')` represented by an
explicit constructor of `PyFloat` and Python's banker's rounding `round`
modelled exactly by `pyRound`.
-/
import Mathlib

set_option maxRecDepth 10000

unseal Rat.mul Rat.add Rat.sub Rat.inv Rat.ofScientific Nat.gcd

/-- Model of a Python float value as produced by this library: either a
finite (rational) value or positive infinity (`float('inf')`). -/
inductive PyFloat where
  | fin : ℚ → PyFloat
  | inf : PyFloat
deriving DecidableEq, Repr

/-- Python's built-in `round` on a real (here rational) argument:
round half to even (banker's rounding). -/
def pyRound (x : ℚ) : ℤ :=
  if x - ⌊x⌋ < 1/2 then ⌊x⌋
  else if 1/2 < x - ⌊x⌋ then ⌊x⌋ + 1
  else if 2 ∣ ⌊x⌋ then ⌊x⌋ else ⌊x⌋ + 1

/-- Embeds `cpd_to_days` (src/gnss_frequencies.py, lines 23-35): period in
days of a frequency in cycles per day; `inf` on zero input.  On the `inf`
input the Python code computes `1.0 / inf = 0.0` in IEEE arithmetic. -/
def cpd_to_days : PyFloat → PyFloat
  | .fin frequency_cpd => if frequency_cpd = 0 then .inf else .fin (1 / frequency_cpd)
  | .inf => .fin 0

/-- Embeds `days_to_cpd` (src/gnss_frequencies.py, lines 38-50): frequency
in cycles per day of a period in days; `inf` on zero input.  On the `inf`
input the Python code computes `1.0 / inf = 0.0` in IEEE arithmetic. -/
def days_to_cpd : PyFloat → PyFloat
  | .fin period_days => if period_days = 0 then .inf else .fin (1 / period_days)
  | .inf => .fin 0

/-- Embeds `calculate_alias_frequency` (src/gnss_frequencies.py, lines
53-67). -/
def calculate_alias_frequency (freq reference_freq : ℚ) : ℚ :=
  if reference_freq = 0 then |freq - (pyRound freq : ℚ)|
  else
    let ratio := freq / reference_freq
    |freq - (pyRound ratio : ℚ) * reference_freq|

/-- Embeds `calculate_subdaily_aliasing` (src/gnss_frequencies.py, lines
70-89): `abs(f - (1/T) * floor(f*T + 0.5))` with `T` the sampling interval
in days. -/
def calculate_subdaily_aliasing (freq_cpd : ℚ) (sampling_interval_hours : ℚ := 24) : ℚ :=
  let T := sampling_interval_hours / 24
  |freq_cpd - (1 / T) * (⌊freq_cpd * T + 1/2⌋ : ℤ)|

/-- Embeds `calculate_orbital_period` (src/gnss_frequencies.py, lines
92-112): `abs(1 / (n/T_E + m/T_S))` guarded by the `(0,0)` pair and by a
near-zero denominator. -/
def calculate_orbital_period (n m : ℤ) (T_S T_E : ℚ) : PyFloat :=
  if n = 0 ∧ m = 0 then .inf
  else
    let denominator := (n : ℚ) / T_E + (m : ℚ) / T_S
    if |denominator| < 1e-10 then .inf
    else .fin |1 / denominator|

/-- Python's `range(lo, hi)` as a list of integers. -/
def intRange (lo hi : ℤ) : List ℤ :=
  (List.range (hi - lo).toNat).map (fun i => lo + (i : ℤ))

/-- The period-band dispatch of `calculate_orbital_peaks`
(src/gnss_frequencies.py, lines 160-172): the period is `1/alias` when the
alias is positive and `inf` otherwise, and the `if/elif` chain assigns at
most one band, first matching condition winning.  An infinite period
satisfies none of the bounded conditions, hence the `none` in that case. -/
def bandOf (alias_freq : ℚ) : Option String :=
  if 0 < alias_freq then
    let period_days := 1 / alias_freq
    if 6 < period_days ∧ period_days ≤ 12 then some "8d_peaks"
    else if 3 < period_days ∧ period_days ≤ 6 then some "4d_peaks"
    else if 2 < period_days ∧ period_days ≤ 3.5 then some "2-7d_peaks"
    else if 1.5 < period_days ∧ period_days ≤ 2.5 then some "2d_peaks"
    else if 0.5 < period_days ∧ period_days ≤ 1.5 then some "1d_peaks"
    else none
  else none

/-- The combination loop of `calculate_orbital_peaks`
(src/gnss_frequencies.py, lines 152-158): for each multiplier `mult` in
`range(1, 5)` and each harmonic `k` in `range(min_harm, max_harm)`, the
key `(mult, k)` (formatted as a string by the Python code) with the alias
`abs(combined - round(combined))` of `combined = mult*f_u + k*f_d`. -/
def orbitalCombos (sun_arg_lat_freq draconitic_freq : ℚ) (harmonics_range : ℤ × ℤ) :
    List ((ℤ × ℤ) × ℚ) :=
  let min_harm := harmonics_range.1
  let max_harm := harmonics_range.2
  (intRange 1 5).bind (fun (mult : ℤ) =>
    let base_freq := (mult : ℚ) * sun_arg_lat_freq
    (intRange min_harm max_harm).map (fun (k : ℤ) =>
      let combined_freq := base_freq + (k : ℚ) * draconitic_freq
      ((mult, k), |combined_freq - (pyRound combined_freq : ℚ)|)))

/-- One step of a stable insertion sort by descending value: the inserted
element goes after every element with a strictly larger value and before
every element with an equal or smaller one, exactly the order CPython's
stable `sorted(..., reverse=True)` produces. -/
def insertDesc {α : Type} (x : α × ℚ) : List (α × ℚ) → List (α × ℚ)
  | [] => [x]
  | y :: ys => if x.2 < y.2 then y :: insertDesc x ys else x :: y :: ys

/-- Stable sort by descending value, modelling Python's
`sorted(items, key=lambda x: x[1], reverse=True)`. -/
def sortDesc {α : Type} (l : List (α × ℚ)) : List (α × ℚ) :=
  l.foldr insertDesc []

/-- Embeds `calculate_orbital_peaks` (src/gnss_frequencies.py, lines
129-184): combinations are generated by `orbitalCombos`, each is assigned
to at most one band by `bandOf`, the empty bands are deleted, and each
remaining band keeps only its 10 entries of largest alias frequency
(stable descending sort, then truncation).  Entry keys are the `(mult, k)`
pairs the Python code formats as `f"{mult}f_u{k:+d}f_d"`. -/
def calculate_orbital_peaks (sun_arg_lat_freq draconitic_freq : ℚ)
    (harmonics_range : ℤ × ℤ := (-6, 7)) : List (String × List ((ℤ × ℤ) × ℚ)) :=
  let combos := orbitalCombos sun_arg_lat_freq draconitic_freq harmonics_range
  ["8d_peaks", "4d_peaks", "2-7d_peaks", "2d_peaks", "1d_peaks"].filterMap
    (fun category =>
      if (combos.filter (fun e => bandOf e.2 = some category)).isEmpty then none
      else some (category,
        (sortDesc (combos.filter (fun e => bandOf e.2 = some category))).take 10))

/-- Embeds `calculate_draconitic_harmonics` (src/gnss_frequencies.py,
lines 115-126): `{i: i * base_freq for i in range(1, max_harmonic + 1)}`. -/
def calculate_draconitic_harmonics (base_freq : ℚ) (max_harmonic : ℕ := 12) :
    List (ℤ × ℚ) :=
  (List.range max_harmonic).map (fun i => (((i : ℤ) + 1), ((i : ℚ) + 1) * base_freq))

/-- Embeds `calculate_annual_harmonics` (src/gnss_frequencies.py, lines
187-198), identical in content to `calculate_draconitic_harmonics`. -/
def calculate_annual_harmonics (base_freq : ℚ) (max_harmonic : ℕ := 12) :
    List (ℤ × ℚ) :=
  (List.range max_harmonic).map (fun i => (((i : ℤ) + 1), ((i : ℚ) + 1) * base_freq))

/-- A key of one of the Python dictionaries of the library: either a string
or an integer (the harmonic tables are keyed by integers). -/
inductive PyKey where
  | str : String → PyKey
  | int : ℤ → PyKey
deriving DecidableEq, Repr

/-- A value of the nested frequency-catalogue dictionary: a finite number,
`float('inf')`, or a nested dictionary (an association list, which like a
Python dict preserves insertion order). -/
inductive PyVal where
  | num : ℚ → PyVal
  | inf : PyVal
  | dict : List (PyKey × PyVal) → PyVal
deriving Repr

/-- All finite numeric leaf values of a nested catalogue value, in
traversal order. -/
def numLeaves : PyVal → List ℚ
  | .num q => [q]
  | .inf => []
  | .dict [] => []
  | .dict ((_, v) :: rest) => numLeaves v ++ numLeaves (.dict rest)

unseal numLeaves

/-- Python's `d[k]` on a modelled dictionary (`none` when absent). -/
def PyVal.lookup : PyVal → PyKey → Option PyVal
  | .dict l, k => (l.find? (fun kv => decide (kv.1 = k))).map (fun kv => kv.2)
  | _, _ => none

/-- Earth rotation period in hours (src/gnss_frequencies.py, line 207). -/
def T_E : ℚ := 23.9345

/-- GPS satellite revolution period in hours (line 210). -/
def T_S_GPS : ℚ := 11.967

/-- GLONASS satellite revolution period in hours (line 211). -/
def T_S_GLONASS : ℚ := 11.264

/-- Galileo satellite revolution period in hours (line 212). -/
def T_S_GALILEO : ℚ := 14.077

/-- The hand-picked `(n, m)` coefficient pairs of
`calculate_orbital_signals_table` (src/gnss_frequencies.py, lines 216-221). -/
def nm_combinations : List (ℤ × ℤ) :=
  [(-4, 1), (-3, 1), (-2, 1), (-1, 1), (0, 1), (1, 1), (2, 1),
   (-4, 2), (-3, 2), (-2, 2), (-1, 2), (0, 2), (1, 2), (2, 2),
   (-2, 3), (-1, 3), (0, 3), (1, 3),
   (-1, 4), (0, 4), (1, 4)]

/-- The orbital-signal records of one constellation
(src/gnss_frequencies.py, lines 235-257): every `(n, m)` pair whose
orbital period is finite and positive yields a record with the period, its
frequency `24/P` in cpd, the 24-hour-sampling alias of that frequency, and
the aliased period in days (`inf` when the alias is zero). -/
def orbital_signals_for (T_S : ℚ) : List (PyKey × PyVal) :=
  nm_combinations.filterMap (fun nm =>
    match calculate_orbital_period nm.1 nm.2 T_S T_E with
    | .inf => none
    | .fin P_nm =>
      if 0 < P_nm then
        some (.str ("n" ++ toString nm.1 ++ "_m" ++ toString nm.2),
          .dict [
            (.str "orbital_period_hours", .num P_nm),
            (.str "frequency_cpd", .num (24 / P_nm)),
            (.str "aliased_frequency_cpd",
              .num (calculate_subdaily_aliasing (24 / P_nm) 24)),
            (.str "aliased_period_days",
              if 0 < calculate_subdaily_aliasing (24 / P_nm) 24 then
                .num (1 / calculate_subdaily_aliasing (24 / P_nm) 24)
              else .inf)])
      else none)

/-- Embeds `calculate_orbital_signals_table` (src/gnss_frequencies.py,
lines 201-259). -/
def calculate_orbital_signals_table : List (String × List (PyKey × PyVal)) :=
  [("gps", orbital_signals_for T_S_GPS),
   ("glonass", orbital_signals_for T_S_GLONASS),
   ("galileo", orbital_signals_for T_S_GALILEO)]

/-- The label `f"{mult}f_u{k:+d}f_d"` the Python code gives a peak entry. -/
def peakLabel (mult k : ℤ) : String :=
  toString mult ++ "f_u" ++ (if 0 ≤ k then "+" ++ toString k else toString k) ++ "f_d"

/-- The result of `calculate_orbital_peaks` as a nested dictionary value,
with the `(mult, k)` keys rendered to their Python string labels. -/
def peaksToPyVal (p : List (String × List ((ℤ × ℤ) × ℚ))) : PyVal :=
  .dict (p.map (fun b =>
    (.str b.1, .dict (b.2.map (fun e => (.str (peakLabel e.1.1 e.1.2), .num e.2))))))

/-- An integer-keyed harmonics table as a nested dictionary value. -/
def harmonicsToPyVal (h : List (ℤ × ℚ)) : PyVal :=
  .dict (h.map (fun e => (.int e.1, .num e.2)))

/-- The tide constants of `create_gnss_frequencies`
(src/gnss_frequencies.py, lines 294-303). -/
def tides : List (String × ℚ) :=
  [("145_545", 0.9293886),
   ("OO_1", 0.9294198),
   ("O_1", 0.9295357),
   ("2N_2", 1.8596904),
   ("μ_2", 1.8645473),
   ("M_2", 1.9322734),
   ("M_m", 0.0362920),
   ("M_f", 0.0732027)]

/-- GPS ground repeat frequency constant (line 276). -/
def gps_ground_repeat : ℚ := 1.0028507

/-- GLONASS ground repeat frequency constant (line 282). -/
def glonass_ground_repeat : ℚ := 0.1253540

/-- Galileo ground repeat frequency constant (line 289). -/
def galileo_ground_repeat : ℚ := 0.1015706

/-- GLONASS sun argument of latitude frequency constant (line 283). -/
def glonass_sun_arg_lat : ℚ := 2.1281882

/-- Galileo sun argument of latitude frequency constant (line 290). -/
def galileo_sun_arg_lat : ℚ := 1.7238896

/-- GLONASS draconitic frequency constant (line 284). -/
def glonass_draconitic : ℚ := 0.0028300

/-- Galileo draconitic frequency constant (line 291). -/
def galileo_draconitic : ℚ := 0.0028104

/-- GPS draconitic frequency constant (line 277). -/
def gps_draconitic : ℚ := 0.0028453

/-- The flat alias table of `create_gnss_frequencies`
(src/gnss_frequencies.py, lines 350-357): per tide, its alias against
1.0 and against the three constellations' ground-repeat frequencies, in
the loop's insertion order. -/
def aliases : List (PyKey × PyVal) :=
  tides.bind (fun t =>
    [(.str (t.1 ++ "_daily"), .num (calculate_alias_frequency t.2 1.0)),
     (.str (t.1 ++ "_gps"), .num (calculate_alias_frequency t.2 gps_ground_repeat)),
     (.str (t.1 ++ "_galileo"), .num (calculate_alias_frequency t.2 galileo_ground_repeat)),
     (.str (t.1 ++ "_glonass"), .num (calculate_alias_frequency t.2 glonass_ground_repeat))])

/-- Embeds the return value of `create_gnss_frequencies`
(src/gnss_frequencies.py, lines 262-366).  The Python code first builds
the literal dictionary and then fills the `aliases` and per-constellation
`orbital_signals` slots in place before returning; since updating an
existing key keeps its position, the returned dictionary is the one built
here directly with the final values. -/
def create_gnss_frequencies : PyVal :=
  .dict [
    (.str "earth", .dict [
      (.str "angular_speed", .num 1.0027378),
      (.str "orbital_frequency", .num 0.0027378)]),
    (.str "gps", .dict [
      (.str "orbital_frequency", .num 2.0057014),
      (.str "nodal_precession_frequency", .num (-0.0001075)),
      (.str "ground_repeat_frequency", .num gps_ground_repeat),
      (.str "draconitic_frequency", .num gps_draconitic),
      (.str "draconitic_harmonics", harmonicsToPyVal (calculate_draconitic_harmonics gps_draconitic 15)),
      (.str "orbital_signals", .dict (orbital_signals_for T_S_GPS))]),
    (.str "glonass", .dict [
      (.str "orbital_frequency", .num 2.1310182),
      (.str "nodal_precession_frequency", .num (-0.0000922)),
      (.str "ground_repeat_frequency", .num glonass_ground_repeat),
      (.str "sun_arg_lat_frequency", .num glonass_sun_arg_lat),
      (.str "draconitic_frequency", .num glonass_draconitic),
      (.str "draconitic_harmonics", harmonicsToPyVal (calculate_draconitic_harmonics glonass_draconitic 15)),
      (.str "orbital_peaks", peaksToPyVal (calculate_orbital_peaks glonass_sun_arg_lat glonass_draconitic)),
      (.str "orbital_signals", .dict (orbital_signals_for T_S_GLONASS))]),
    (.str "galileo", .dict [
      (.str "orbital_frequency", .num 1.7267000),
      (.str "nodal_precession_frequency", .num (-0.0000726)),
      (.str "ground_repeat_frequency", .num galileo_ground_repeat),
      (.str "sun_arg_lat_frequency", .num galileo_sun_arg_lat),
      (.str "draconitic_frequency", .num galileo_draconitic),
      (.str "draconitic_harmonics", harmonicsToPyVal (calculate_draconitic_harmonics galileo_draconitic 15)),
      (.str "orbital_peaks", peaksToPyVal (calculate_orbital_peaks galileo_sun_arg_lat galileo_draconitic)),
      (.str "orbital_signals", .dict (orbital_signals_for T_S_GALILEO))]),
    (.str "tides", .dict (tides.map (fun t => (.str t.1, .num t.2)))),
    (.str "annual", harmonicsToPyVal (calculate_annual_harmonics 0.0027378 12)),
    (.str "aliases", .dict aliases)]

example : pyRound (5/2) = 2 := by decide
example : pyRound (7/2) = 4 := by decide
example : pyRound (-5/2) = -2 := by decide
example : pyRound (23/10) = 2 := by decide
example : calculate_subdaily_aliasing 1 24 = 0 := by decide
example : calculate_subdaily_aliasing 2.0057014 24 = 0.0057014 := by decide
example : calculate_alias_frequency 2.0057014 1 = 0.0057014 := by decide
example : calculate_orbital_period 0 1 12 24 = .fin 12 := by decide
example : calculate_orbital_period 0 0 12 24 = .inf := by decide

lemma pyRound_eq_floor_of_lt (x : ℚ) (h : x - ⌊x⌋ < 1/2) : pyRound x = ⌊x⌋ := by
  unfold pyRound
  rw [if_pos h]

lemma pyRound_eq_floor_add_one_of_gt (x : ℚ) (h : 1/2 < x - ⌊x⌋) :
    pyRound x = ⌊x⌋ + 1 := by
  unfold pyRound
  rw [if_neg (by linarith), if_pos h]

/-- Python's `round` always lands on the floor or the ceiling of its
argument, so its distance to the argument never exceeds one half. -/
lemma abs_sub_pyRound_le_half (x : ℚ) : |x - (pyRound x : ℚ)| ≤ 1/2 := by
  have h1 : (⌊x⌋ : ℚ) ≤ x := Int.floor_le x
  have h2 : x < ⌊x⌋ + 1 := Int.lt_floor_add_one x
  unfold pyRound
  split_ifs with ha hb hc
  · rw [abs_of_nonneg (by linarith)]; linarith
  · push_cast
    rw [abs_of_nonpos (by linarith)]
    linarith
  · rw [abs_of_nonneg (by linarith)]; linarith
  · push_cast
    rw [abs_of_nonpos (by linarith)]
    linarith

/-- The distance to Python's round-half-to-even integer equals the
distance to the `floor(x + 0.5)` round-half-up integer: away from a tie
the two integers coincide, and at a tie both distances are one half. -/
lemma abs_sub_pyRound_eq_abs_sub_floor (x : ℚ) :
    |x - (pyRound x : ℚ)| = |x - (⌊x + 1/2⌋ : ℚ)| := by
  have h1 : (⌊x⌋ : ℚ) ≤ x := Int.floor_le x
  have h2 : x < ⌊x⌋ + 1 := Int.lt_floor_add_one x
  rcases lt_trichotomy (x - ⌊x⌋) (1/2) with ha | ha | ha
  · have hf : ⌊x + 1/2⌋ = ⌊x⌋ := by
      rw [Int.floor_eq_iff]
      constructor
      · linarith
      · push_cast; linarith
    rw [pyRound_eq_floor_of_lt x ha, hf]
  · have hf : ⌊x + 1/2⌋ = ⌊x⌋ + 1 := by
      rw [Int.floor_eq_iff]
      constructor
      · push_cast; linarith
      · push_cast; linarith
    rw [hf]
    unfold pyRound
    split_ifs with hb hc hd
    · linarith
    · linarith
    · push_cast
      rw [abs_of_nonneg (by linarith), abs_of_nonpos (by linarith)]
      linarith
    · rfl
  · have hf : ⌊x + 1/2⌋ = ⌊x⌋ + 1 := by
      rw [Int.floor_eq_iff]
      constructor
      · push_cast; linarith
      · push_cast; linarith
    rw [pyRound_eq_floor_add_one_of_gt x ha, hf]

/-- C8: for every positive frequency `f`, converting to a period and back
returns `f` exactly (the rational model is exact, hence well within the
claimed `1e-12` tolerance), and both conversions send `0` to `inf`. -/
theorem cpd_days_round_trip (f : ℚ) (h : 0 < f) :
    days_to_cpd (cpd_to_days (.fin f)) = .fin f ∧
    cpd_to_days (.fin 0) = .inf ∧ days_to_cpd (.fin 0) = .inf := by
  refine ⟨?_, by simp [cpd_to_days], by simp [days_to_cpd]⟩
  have hf : f ≠ 0 := ne_of_gt h
  simp [cpd_to_days, days_to_cpd, hf, one_div, inv_eq_zero, inv_inv]

theorem cpd_days_round_trip_witness :
    (0 : ℚ) < 3 ∧
    (days_to_cpd (cpd_to_days (.fin 3)) = .fin 3 ∧
     cpd_to_days (.fin 0) = .inf ∧ days_to_cpd (.fin 0) = .inf) :=
  ⟨by norm_num, cpd_days_round_trip 3 (by norm_num)⟩

/-- C1: for all integer coefficients and positive periods,
`calculate_orbital_period` is `inf` on the `(0, 0)` pair, `inf` when the
denominator `n/T_E + m/T_S` is smaller than `1e-10` in absolute value, and
otherwise the finite, strictly positive value `abs(1/(n/T_E + m/T_S))`. -/
theorem calculate_orbital_period_spec (n m : ℤ) (T_S T_E : ℚ)
    (hS : 0 < T_S) (hE : 0 < T_E) :
    (n = 0 ∧ m = 0 → calculate_orbital_period n m T_S T_E = .inf) ∧
    (¬(n = 0 ∧ m = 0) → |(n : ℚ) / T_E + (m : ℚ) / T_S| < 1e-10 →
      calculate_orbital_period n m T_S T_E = .inf) ∧
    (¬(n = 0 ∧ m = 0) → ¬(|(n : ℚ) / T_E + (m : ℚ) / T_S| < 1e-10) →
      calculate_orbital_period n m T_S T_E =
        .fin |1 / ((n : ℚ) / T_E + (m : ℚ) / T_S)| ∧
      0 < |1 / ((n : ℚ) / T_E + (m : ℚ) / T_S)|) := by
  refine ⟨fun h => by simp [calculate_orbital_period, h], ?_, ?_⟩
  · intro h hd
    simp only [calculate_orbital_period, if_neg h]
    rw [if_pos hd]
  · intro h hd
    constructor
    · simp only [calculate_orbital_period, if_neg h]
      rw [if_neg hd]
    · have hne : (n : ℚ) / T_E + (m : ℚ) / T_S ≠ 0 := by
        intro h0
        exact hd (by rw [h0]; norm_num)
      exact abs_pos.mpr (one_div_ne_zero hne)

theorem calculate_orbital_period_spec_witness :
    (0 : ℚ) < 12 ∧ (0 : ℚ) < 24 ∧
    (calculate_orbital_period 0 1 12 24 =
       .fin |1 / (((0 : ℤ) : ℚ) / 24 + ((1 : ℤ) : ℚ) / 12)| ∧
     0 < |1 / (((0 : ℤ) : ℚ) / 24 + ((1 : ℤ) : ℚ) / 12)|) :=
  ⟨by norm_num, by norm_num,
   (calculate_orbital_period_spec 0 1 12 24 (by norm_num) (by norm_num)).2.2
     (by decide) (by decide)⟩

/-- C2: `calculate_subdaily_aliasing` computes exactly the floor-based
round-half-up folding formula `abs(f - (1/T) * floor(f*T + 0.5))` with
`T = h/24`, and on the two pinned inputs it gives `0` for a daily signal
sampled daily and exactly `0.0057014` for the GPS orbital frequency
`2.0057014` sampled every 24 hours. -/
theorem calculate_subdaily_aliasing_spec (freq_cpd sampling_interval_hours : ℚ)
    (h : 0 < sampling_interval_hours) :
    calculate_subdaily_aliasing freq_cpd sampling_interval_hours =
      |freq_cpd - (1 / (sampling_interval_hours / 24)) *
        (⌊freq_cpd * (sampling_interval_hours / 24) + 1/2⌋ : ℤ)| ∧
    calculate_subdaily_aliasing 1 24 = 0 ∧
    calculate_subdaily_aliasing 2.0057014 24 = 0.0057014 :=
  ⟨rfl, by decide, by decide⟩

theorem calculate_subdaily_aliasing_spec_witness :
    (0 : ℚ) < 24 ∧ calculate_subdaily_aliasing 2.0057014 24 = 0.0057014 :=
  ⟨by norm_num, (calculate_subdaily_aliasing_spec 2.0057014 24 (by norm_num)).2.2⟩

/-- C5: `calculate_alias_frequency` folds against the nearest integer
multiple of the reference, `abs(f - round(f/r) * r)` for a nonzero
reference and `abs(f - round(f))` for a zero reference, with the same
rounding convention (Python's `round`, modelled by `pyRound`) in both
branches. -/
theorem calculate_alias_frequency_spec (freq reference_freq : ℚ) :
    (reference_freq ≠ 0 →
      calculate_alias_frequency freq reference_freq =
        |freq - (pyRound (freq / reference_freq) : ℚ) * reference_freq|) ∧
    calculate_alias_frequency freq 0 = |freq - (pyRound freq : ℚ)| := by
  constructor
  · intro h
    simp [calculate_alias_frequency, h]
  · simp [calculate_alias_frequency]

theorem calculate_alias_frequency_spec_witness :
    (1 : ℚ) ≠ 0 ∧
    calculate_alias_frequency (3/2) 1 = |(3/2 : ℚ) - (pyRound ((3/2 : ℚ) / 1) : ℚ) * 1| :=
  ⟨by norm_num, (calculate_alias_frequency_spec (3/2) 1).1 (by norm_num)⟩

/-- C10: aliasing against a `1.0` cpd reference and subdaily aliasing at a
24-hour sampling interval agree on every frequency: away from half-integer
ties both pick the nearest integer, and at a tie round-half-to-even and
`floor(x + 0.5)` pick integers on opposite sides at the same distance
`0.5`, so the absolute alias is the same. -/
theorem alias_matches_subdaily (freq : ℚ) :
    calculate_alias_frequency freq 1 = calculate_subdaily_aliasing freq 24 := by
  have h24 : (24 : ℚ) / 24 = 1 := by norm_num
  rw [calculate_alias_frequency, calculate_subdaily_aliasing]
  rw [if_neg (one_ne_zero)]
  simp only [h24, div_one, mul_one, one_div_one, one_mul]
  exact abs_sub_pyRound_eq_abs_sub_floor freq

lemma length_insertDesc {α : Type} (x : α × ℚ) (l : List (α × ℚ)) :
    (insertDesc x l).length = l.length + 1 := by
  induction l with
  | nil => rfl
  | cons y ys ih =>
    unfold insertDesc
    split_ifs
    · simp [ih]
    · simp

lemma length_sortDesc {α : Type} (l : List (α × ℚ)) :
    (sortDesc l).length = l.length := by
  induction l with
  | nil => rfl
  | cons y ys ih =>
    show (insertDesc y (sortDesc ys)).length = ys.length + 1
    rw [length_insertDesc, ih]

lemma mem_insertDesc {α : Type} (x y : α × ℚ) (l : List (α × ℚ))
    (h : y ∈ insertDesc x l) : y = x ∨ y ∈ l := by
  induction l with
  | nil => simpa [insertDesc] using h
  | cons z zs ih =>
    unfold insertDesc at h
    split_ifs at h with hz
    · rcases List.mem_cons.mp h with h' | h'
      · exact Or.inr (by simp [h'])
      · rcases ih h' with h'' | h''
        · exact Or.inl h''
        · exact Or.inr (List.mem_cons_of_mem _ h'')
    · rcases List.mem_cons.mp h with h' | h'
      · exact Or.inl h'
      · exact Or.inr h'

lemma mem_sortDesc {α : Type} (y : α × ℚ) (l : List (α × ℚ))
    (h : y ∈ sortDesc l) : y ∈ l := by
  induction l with
  | nil => simpa [sortDesc] using h
  | cons z zs ih =>
    have h' : y ∈ insertDesc z (sortDesc zs) := h
    rcases mem_insertDesc z y (sortDesc zs) h' with h'' | h''
    · simp [h'']
    · exact List.mem_cons_of_mem _ (ih h'')

lemma orbitalCombos_snd_le_half (f_u f_d : ℚ) (hr : ℤ × ℤ)
    (e : (ℤ × ℤ) × ℚ) (he : e ∈ orbitalCombos f_u f_d hr) : e.2 ≤ 1/2 := by
  unfold orbitalCombos at he
  rw [List.mem_bind] at he
  obtain ⟨mult, -, he⟩ := he
  rw [List.mem_map] at he
  obtain ⟨k, -, rfl⟩ := he
  exact abs_sub_pyRound_le_half _

lemma bandOf_ne_1d (a : ℚ) (h : a ≤ 1/2) : bandOf a ≠ some "1d_peaks" := by
  unfold bandOf
  by_cases h0 : 0 < a
  · rw [if_pos h0]
    have h2 : (2 : ℚ) ≤ 1 / a := by
      rw [le_div_iff h0]
      linarith
    show (if 6 < 1/a ∧ 1/a ≤ 12 then some "8d_peaks"
      else if 3 < 1/a ∧ 1/a ≤ 6 then some "4d_peaks"
      else if 2 < 1/a ∧ 1/a ≤ 3.5 then some "2-7d_peaks"
      else if 1.5 < 1/a ∧ 1/a ≤ 2.5 then some "2d_peaks"
      else if 0.5 < 1/a ∧ 1/a ≤ 1.5 then some "1d_peaks"
      else none) ≠ some "1d_peaks"
    split_ifs with h8 h4 h27 hd2 hd1
    · simp
    · simp
    · simp
    · simp
    · exfalso
      have : (1.5 : ℚ) = 3/2 := by norm_num
      rw [this] at hd1
      linarith [hd1.2]
    · simp
  · rw [if_neg h0]
    simp

/-- C3: with the default harmonic range, `calculate_orbital_peaks`
enumerates exactly the pairs `(mult, k)` with `mult` in `1..4` and `k` in
`-6..6`, each carrying the alias `abs(combined - round(combined))` of
`combined = mult*f_u + k*f_d`; the band of an alias is decided from the
period `1/alias` (`inf`, matching no band, when the alias is `0`) by the
fixed first-match-wins chain `(6,12] → 8d, (3,6] → 4d, (2,3.5] → 2-7d,
(1.5,2.5] → 2d, (0.5,1.5] → 1d`; every entry of a returned band comes from
that enumeration and is assigned to that band; and a period in `(2, 2.5]`
always lands in `"2-7d_peaks"`, never in `"2d_peaks"`. -/
theorem orbital_peaks_enumeration (f_u f_d : ℚ) :
    orbitalCombos f_u f_d (-6, 7) =
      ([1, 2, 3, 4] : List ℤ).bind (fun (mult : ℤ) =>
        ([-6, -5, -4, -3, -2, -1, 0, 1, 2, 3, 4, 5, 6] : List ℤ).map (fun (k : ℤ) =>
          ((mult, k),
            |(mult : ℚ) * f_u + (k : ℚ) * f_d -
              (pyRound ((mult : ℚ) * f_u + (k : ℚ) * f_d) : ℚ)|))) ∧
    (bandOf 0 = none ∧ ∀ a : ℚ, 0 < a →
      bandOf a =
        (if 6 < 1/a ∧ 1/a ≤ 12 then some "8d_peaks"
         else if 3 < 1/a ∧ 1/a ≤ 6 then some "4d_peaks"
         else if 2 < 1/a ∧ 1/a ≤ 3.5 then some "2-7d_peaks"
         else if 1.5 < 1/a ∧ 1/a ≤ 2.5 then some "2d_peaks"
         else if 0.5 < 1/a ∧ 1/a ≤ 1.5 then some "1d_peaks"
         else none)) ∧
    (∀ b l, (b, l) ∈ calculate_orbital_peaks f_u f_d → ∀ e ∈ l,
      e ∈ orbitalCombos f_u f_d (-6, 7) ∧ bandOf e.2 = some b) ∧
    (∀ a : ℚ, 0 < a → 2 < 1/a → 1/a ≤ 5/2 →
      bandOf a = some "2-7d_peaks" ∧ bandOf a ≠ some "2d_peaks") := by
  refine ⟨?_, ⟨rfl, ?_⟩, ?_, ?_⟩
  · rfl
  · intro a h
    unfold bandOf
    rw [if_pos h]
  · intro b l hmem e he
    unfold calculate_orbital_peaks at hmem
    rw [List.mem_filterMap] at hmem
    obtain ⟨cat, -, heq⟩ := hmem
    split_ifs at heq with hemp
    simp only [Option.some_inj, Prod.mk.injEq] at heq
    obtain ⟨rfl, rfl⟩ := heq
    have he' := mem_sortDesc e _ (List.take_subset 10 _ he)
    rw [List.mem_filter] at he'
    exact ⟨he'.1, by simpa using he'.2⟩
  · intro a h0 h2 h25
    have hb : bandOf a = some "2-7d_peaks" := by
      unfold bandOf
      rw [if_pos h0]
      show (if 6 < 1/a ∧ 1/a ≤ 12 then some "8d_peaks"
        else if 3 < 1/a ∧ 1/a ≤ 6 then some "4d_peaks"
        else if 2 < 1/a ∧ 1/a ≤ 3.5 then some "2-7d_peaks"
        else if 1.5 < 1/a ∧ 1/a ≤ 2.5 then some "2d_peaks"
        else if 0.5 < 1/a ∧ 1/a ≤ 1.5 then some "1d_peaks"
        else none) = some "2-7d_peaks"
      have h35 : (3.5 : ℚ) = 7/2 := by norm_num
      rw [if_neg (by rintro ⟨h6, -⟩; linarith), if_neg (by rintro ⟨h3, -⟩; linarith),
        if_pos ⟨h2, by rw [h35]; linarith⟩]
    exact ⟨hb, by rw [hb]; simp⟩

theorem orbital_peaks_enumeration_witness :
    (0 : ℚ) < 2/5 ∧ 2 < 1/(2/5 : ℚ) ∧ 1/(2/5 : ℚ) ≤ 5/2 ∧
    (bandOf (2/5) = some "2-7d_peaks" ∧ bandOf (2/5) ≠ some "2d_peaks") :=
  ⟨by norm_num, by norm_num, by norm_num,
   (orbital_peaks_enumeration 1 1).2.2.2 (2/5) (by norm_num) (by norm_num) (by norm_num)⟩

/-- C4: every band present in the result of `calculate_orbital_peaks`
holds at least 1 and at most 10 entries: a band survives only if its entry
list is nonempty, and the surviving list is the 10-element descending
truncation of the band's entries. -/
theorem orbital_peaks_band_size (f_u f_d : ℚ) (b : String)
    (l : List ((ℤ × ℤ) × ℚ)) (h : (b, l) ∈ calculate_orbital_peaks f_u f_d) :
    1 ≤ l.length ∧ l.length ≤ 10 := by
  unfold calculate_orbital_peaks at h
  rw [List.mem_filterMap] at h
  obtain ⟨cat, -, heq⟩ := h
  split_ifs at heq with hemp
  simp only [Option.some_inj, Prod.mk.injEq] at heq
  obtain ⟨rfl, rfl⟩ := heq
  have hne : ((orbitalCombos f_u f_d (-6, 7)).filter
      (fun e => bandOf e.2 = some cat)) ≠ [] := by
    simpa using hemp
  have h1 : 1 ≤ ((orbitalCombos f_u f_d (-6, 7)).filter
      (fun e => bandOf e.2 = some cat)).length :=
    Nat.one_le_iff_ne_zero.mpr (fun h0 => hne (List.length_eq_zero.mp h0))
  rw [List.length_take, length_sortDesc]
  refine ⟨?_, ?_⟩ <;> omega

theorem orbital_peaks_band_size_witness :
    ("2d_peaks",
      [(((1 : ℤ), (-6 : ℤ)), (1/2 : ℚ)), ((1, -5), 1/2), ((1, -4), 1/2),
       ((1, -3), 1/2), ((1, -2), 1/2), ((1, -1), 1/2), ((1, 0), 1/2),
       ((1, 1), 1/2), ((1, 2), 1/2), ((1, 3), 1/2)]) ∈
      calculate_orbital_peaks (1/2) 0 ∧
    (1 ≤ ([(((1 : ℤ), (-6 : ℤ)), (1/2 : ℚ)), ((1, -5), 1/2), ((1, -4), 1/2),
       ((1, -3), 1/2), ((1, -2), 1/2), ((1, -1), 1/2), ((1, 0), 1/2),
       ((1, 1), 1/2), ((1, 2), 1/2), ((1, 3), 1/2)] :
         List ((ℤ × ℤ) × ℚ)).length ∧
     ([(((1 : ℤ), (-6 : ℤ)), (1/2 : ℚ)), ((1, -5), 1/2), ((1, -4), 1/2),
       ((1, -3), 1/2), ((1, -2), 1/2), ((1, -1), 1/2), ((1, 0), 1/2),
       ((1, 1), 1/2), ((1, 2), 1/2), ((1, 3), 1/2)] :
         List ((ℤ × ℤ) × ℚ)).length ≤ 10) :=
  ⟨by decide,
   orbital_peaks_band_size (1/2) 0 "2d_peaks" _ (by decide)⟩

/-- C9: every alias `abs(x - round(x))` is at most `0.5`, so the implied
period is at least 2 days (or infinite) and the `(0.5, 1.5]` band can
never be hit: `"1d_peaks"` is always empty and hence deleted, so it never
appears in the result of `calculate_orbital_peaks`. -/
theorem orbital_peaks_no_1d (f_u f_d : ℚ) :
    (∀ x : ℚ, |x - (pyRound x : ℚ)| ≤ 1/2) ∧
    ∀ e ∈ calculate_orbital_peaks f_u f_d, e.1 ≠ "1d_peaks" := by
  refine ⟨abs_sub_pyRound_le_half, ?_⟩
  intro e he
  unfold calculate_orbital_peaks at he
  rw [List.mem_filterMap] at he
  obtain ⟨cat, hcat, heq⟩ := he
  split_ifs at heq with hemp
  obtain rfl := Option.some_inj.mp heq
  show cat ≠ "1d_peaks"
  simp only [List.mem_cons, List.mem_singleton, List.not_mem_nil, or_false] at hcat
  rcases hcat with h | h | h | h | h
  · simp [h]
  · simp [h]
  · simp [h]
  · simp [h]
  · exfalso
    apply hemp
    rw [List.isEmpty_eq_true, List.filter_eq_nil_iff]
    intro a ha
    have hb := bandOf_ne_1d a.2 (orbitalCombos_snd_le_half f_u f_d _ a ha)
    rw [h]
    simpa using hb

theorem orbital_peaks_no_1d_witness :
    ("2d_peaks",
      [(((1 : ℤ), (-6 : ℤ)), (1/2 : ℚ)), ((1, -5), 1/2), ((1, -4), 1/2),
       ((1, -3), 1/2), ((1, -2), 1/2), ((1, -1), 1/2), ((1, 0), 1/2),
       ((1, 1), 1/2), ((1, 2), 1/2), ((1, 3), 1/2)]) ∈
      calculate_orbital_peaks (1/2) 0 ∧
    ("2d_peaks" : String) ≠ "1d_peaks" :=
  ⟨by decide,
   (orbital_peaks_no_1d (1/2) 0).2
     ("2d_peaks",
      [(((1 : ℤ), (-6 : ℤ)), (1/2 : ℚ)), ((1, -5), 1/2), ((1, -4), 1/2),
       ((1, -3), 1/2), ((1, -2), 1/2), ((1, -1), 1/2), ((1, 0), 1/2),
       ((1, 1), 1/2), ((1, 2), 1/2), ((1, 3), 1/2)]) (by decide)⟩

lemma numLeaves_num (q : ℚ) : numLeaves (.num q) = [q] := by
  simp [numLeaves]

lemma numLeaves_inf : numLeaves .inf = [] := by
  simp [numLeaves]

lemma numLeaves_dict_nil : numLeaves (.dict []) = [] := by
  simp [numLeaves]

lemma numLeaves_dict_cons (kv : PyKey × PyVal) (rest : List (PyKey × PyVal)) :
    numLeaves (.dict (kv :: rest)) = numLeaves kv.2 ++ numLeaves (.dict rest) := by
  obtain ⟨k, v⟩ := kv
  simp [numLeaves]

lemma numLeaves_dict_mem (l : List (PyKey × PyVal)) (q : ℚ)
    (h : q ∈ numLeaves (.dict l)) : ∃ kv ∈ l, q ∈ numLeaves kv.2 := by
  induction l with
  | nil => rw [numLeaves_dict_nil] at h; simp at h
  | cons kv rest ih =>
    rw [numLeaves_dict_cons] at h
    rcases List.mem_append.mp h with h | h
    · exact ⟨kv, List.mem_cons_self kv rest, h⟩
    · obtain ⟨kv', hkv', hq⟩ := ih h
      exact ⟨kv', List.mem_cons_of_mem _ hkv', hq⟩

lemma calculate_alias_frequency_nonneg (freq reference_freq : ℚ) :
    0 ≤ calculate_alias_frequency freq reference_freq := by
  unfold calculate_alias_frequency
  split_ifs <;> exact abs_nonneg _

lemma calculate_subdaily_aliasing_nonneg (freq_cpd sampling_interval_hours : ℚ) :
    0 ≤ calculate_subdaily_aliasing freq_cpd sampling_interval_hours :=
  abs_nonneg _

lemma orbitalCombos_snd_nonneg (f_u f_d : ℚ) (hr : ℤ × ℤ)
    (e : (ℤ × ℤ) × ℚ) (he : e ∈ orbitalCombos f_u f_d hr) : 0 ≤ e.2 := by
  unfold orbitalCombos at he
  rw [List.mem_bind] at he
  obtain ⟨mult, -, he⟩ := he
  rw [List.mem_map] at he
  obtain ⟨k, -, rfl⟩ := he
  exact abs_nonneg _

lemma orbital_peaks_mem (f_u f_d : ℚ) (hr : ℤ × ℤ) (b : String)
    (l : List ((ℤ × ℤ) × ℚ)) (hmem : (b, l) ∈ calculate_orbital_peaks f_u f_d hr)
    (e : (ℤ × ℤ) × ℚ) (he : e ∈ l) :
    e ∈ orbitalCombos f_u f_d hr ∧ bandOf e.2 = some b := by
  unfold calculate_orbital_peaks at hmem
  rw [List.mem_filterMap] at hmem
  obtain ⟨cat, -, heq⟩ := hmem
  split_ifs at heq with hemp
  simp only [Option.some_inj, Prod.mk.injEq] at heq
  obtain ⟨rfl, rfl⟩ := heq
  have he' := mem_sortDesc e _ (List.take_subset 10 _ he)
  rw [List.mem_filter] at he'
  exact ⟨he'.1, by simpa using he'.2⟩

lemma aliases_leaves_nonneg (q : ℚ) (hq : q ∈ numLeaves (.dict aliases)) : 0 ≤ q := by
  obtain ⟨kv, hkv, hq⟩ := numLeaves_dict_mem _ _ hq
  unfold aliases at hkv
  rw [List.mem_bind] at hkv
  obtain ⟨t, -, hkv⟩ := hkv
  simp only [List.mem_cons, List.not_mem_nil, or_false] at hkv
  rcases hkv with h | h | h | h <;>
    (subst h
     rw [numLeaves_num] at hq
     obtain rfl := List.mem_singleton.mp hq
     exact calculate_alias_frequency_nonneg _ _)

lemma signals_leaves_nonneg (T_S : ℚ) (q : ℚ)
    (hq : q ∈ numLeaves (.dict (orbital_signals_for T_S))) : 0 ≤ q := by
  obtain ⟨kv, hkv, hq⟩ := numLeaves_dict_mem _ _ hq
  unfold orbital_signals_for at hkv
  rw [List.mem_filterMap] at hkv
  obtain ⟨nm, -, hnm⟩ := hkv
  split at hnm
  · simp at hnm
  · rename_i P hP
    split_ifs at hnm with hpos halias
    · obtain rfl := Option.some_inj.mp hnm
      dsimp only at hq
      rw [numLeaves_dict_cons, numLeaves_dict_cons, numLeaves_dict_cons,
        numLeaves_dict_cons, numLeaves_dict_nil] at hq
      simp only [numLeaves_num, List.mem_append, List.mem_singleton,
        List.not_mem_nil, or_false, List.append_nil] at hq
      rcases hq with h | h | h | h
      · subst h; exact le_of_lt hpos
      · subst h; exact div_nonneg (by norm_num) (le_of_lt hpos)
      · subst h; exact calculate_subdaily_aliasing_nonneg _ _
      · subst h; exact le_of_lt (one_div_pos.mpr halias)
    · obtain rfl := Option.some_inj.mp hnm
      dsimp only at hq
      rw [numLeaves_dict_cons, numLeaves_dict_cons, numLeaves_dict_cons,
        numLeaves_dict_cons, numLeaves_dict_nil] at hq
      simp only [numLeaves_num, numLeaves_inf, List.mem_append, List.mem_singleton,
        List.not_mem_nil, or_false, List.append_nil] at hq
      rcases hq with h | h | h
      · subst h; exact le_of_lt hpos
      · subst h; exact div_nonneg (by norm_num) (le_of_lt hpos)
      · subst h; exact calculate_subdaily_aliasing_nonneg _ _

lemma harmonics_leaves_nonneg (base_freq : ℚ) (hb : 0 ≤ base_freq) (n : ℕ) (q : ℚ)
    (hq : q ∈ numLeaves (harmonicsToPyVal
      ((List.range n).map (fun (i : ℕ) => (((i : ℤ) + 1), ((i : ℚ) + 1) * base_freq))))) :
    0 ≤ q := by
  unfold harmonicsToPyVal at hq
  obtain ⟨kv, hkv, hq⟩ := numLeaves_dict_mem _ _ hq
  rw [List.mem_map] at hkv
  obtain ⟨e, he, rfl⟩ := hkv
  rw [List.mem_map] at he
  obtain ⟨i, -, rfl⟩ := he
  rw [numLeaves_num] at hq
  obtain rfl := List.mem_singleton.mp hq
  exact mul_nonneg (add_nonneg (Nat.cast_nonneg i) zero_le_one) hb

lemma peaks_leaves_nonneg (f_u f_d : ℚ) (q : ℚ)
    (hq : q ∈ numLeaves (peaksToPyVal (calculate_orbital_peaks f_u f_d))) : 0 ≤ q := by
  unfold peaksToPyVal at hq
  obtain ⟨kv, hkv, hq⟩ := numLeaves_dict_mem _ _ hq
  rw [List.mem_map] at hkv
  obtain ⟨b, hb, rfl⟩ := hkv
  obtain ⟨kv2, hkv2, hq⟩ := numLeaves_dict_mem _ _ hq
  rw [List.mem_map] at hkv2
  obtain ⟨e, he, rfl⟩ := hkv2
  rw [numLeaves_num] at hq
  obtain rfl := List.mem_singleton.mp hq
  have hmem : (b.1, b.2) ∈ calculate_orbital_peaks f_u f_d := by
    rw [show ((b.1, b.2) : String × List ((ℤ × ℤ) × ℚ)) = b from rfl]
    exact hb
  exact orbitalCombos_snd_nonneg f_u f_d _ e
    (orbital_peaks_mem f_u f_d _ b.1 b.2 hmem e he).1

lemma tides_snd_nonneg : ∀ t ∈ tides, (0 : ℚ) ≤ t.2 := by decide

lemma numLeaves_dict_cons' (k : PyKey) (v : PyVal) (rest : List (PyKey × PyVal)) :
    numLeaves (.dict ((k, v) :: rest)) = numLeaves v ++ numLeaves (.dict rest) :=
  numLeaves_dict_cons (k, v) rest

lemma eq_of_mem_num (q c : ℚ) (h : q ∈ numLeaves (.num c)) : q = c := by
  rw [numLeaves_num] at h
  exact List.mem_singleton.mp h

lemma neg_gps_nodal_mem : (-0.0001075 : ℚ) ∈ numLeaves create_gnss_frequencies := by
  rw [create_gnss_frequencies, numLeaves_dict_cons']
  apply List.mem_append_right
  rw [numLeaves_dict_cons']
  apply List.mem_append_left
  rw [numLeaves_dict_cons']
  apply List.mem_append_right
  rw [numLeaves_dict_cons']
  apply List.mem_append_left
  rw [numLeaves_num]
  exact List.mem_singleton.mpr rfl

/-- C6 counterexample: the catalogue stores a negative numeric value, the
GPS nodal precession frequency `-0.0001075`, so not every numeric
frequency value of `create_gnss_frequencies` is non-negative. -/
theorem catalogue_has_negative_value :
    ¬ ∀ q ∈ numLeaves create_gnss_frequencies, 0 ≤ q := by
  intro h
  have hc := h _ neg_gps_nodal_mem
  norm_num at hc

/-- C6 (amended): every numeric value stored in the catalogue returned by
`create_gnss_frequencies` is non-negative except the three nodal
precession frequencies, whose literal constants `-0.0001075` (GPS),
`-0.0000922` (GLONASS) and `-0.0000726` (Galileo) are the only negative
values stored. -/
theorem catalogue_nonneg_except_nodal (q : ℚ)
    (hq : q ∈ numLeaves create_gnss_frequencies) (hneg : q < 0) :
    q = -0.0001075 ∨ q = -0.0000922 ∨ q = -0.0000726 := by
  rw [create_gnss_frequencies] at hq
  obtain ⟨kv, hkv, hq⟩ := numLeaves_dict_mem _ _ hq
  simp only [List.mem_cons, List.not_mem_nil, or_false] at hkv
  rcases hkv with h | h | h | h | h | h | h <;> subst h <;> dsimp only at hq
  · obtain ⟨kv2, hkv2, hq⟩ := numLeaves_dict_mem _ _ hq
    simp only [List.mem_cons, List.not_mem_nil, or_false] at hkv2
    rcases hkv2 with h | h <;> subst h <;> dsimp only at hq <;>
      (obtain rfl := eq_of_mem_num _ _ hq; exact absurd hneg (by norm_num))
  · obtain ⟨kv2, hkv2, hq⟩ := numLeaves_dict_mem _ _ hq
    simp only [List.mem_cons, List.not_mem_nil, or_false] at hkv2
    rcases hkv2 with h | h | h | h | h | h <;> subst h <;> dsimp only at hq
    · obtain rfl := eq_of_mem_num _ _ hq; exact absurd hneg (by norm_num)
    · obtain rfl := eq_of_mem_num _ _ hq; exact Or.inl rfl
    · obtain rfl := eq_of_mem_num _ _ hq
      exact absurd hneg (by norm_num [gps_ground_repeat])
    · obtain rfl := eq_of_mem_num _ _ hq
      exact absurd hneg (by norm_num [gps_draconitic])
    · exact absurd hneg (not_lt.mpr
        (harmonics_leaves_nonneg gps_draconitic (by norm_num [gps_draconitic]) 15 q hq))
    · exact absurd hneg (not_lt.mpr (signals_leaves_nonneg T_S_GPS q hq))
  · obtain ⟨kv2, hkv2, hq⟩ := numLeaves_dict_mem _ _ hq
    simp only [List.mem_cons, List.not_mem_nil, or_false] at hkv2
    rcases hkv2 with h | h | h | h | h | h | h | h <;> subst h <;> dsimp only at hq
    · obtain rfl := eq_of_mem_num _ _ hq; exact absurd hneg (by norm_num)
    · obtain rfl := eq_of_mem_num _ _ hq; exact Or.inr (Or.inl rfl)
    · obtain rfl := eq_of_mem_num _ _ hq
      exact absurd hneg (by norm_num [glonass_ground_repeat])
    · obtain rfl := eq_of_mem_num _ _ hq
      exact absurd hneg (by norm_num [glonass_sun_arg_lat])
    · obtain rfl := eq_of_mem_num _ _ hq
      exact absurd hneg (by norm_num [glonass_draconitic])
    · exact absurd hneg (not_lt.mpr
        (harmonics_leaves_nonneg glonass_draconitic (by norm_num [glonass_draconitic]) 15 q hq))
    · exact absurd hneg (not_lt.mpr
        (peaks_leaves_nonneg glonass_sun_arg_lat glonass_draconitic q hq))
    · exact absurd hneg (not_lt.mpr (signals_leaves_nonneg T_S_GLONASS q hq))
  · obtain ⟨kv2, hkv2, hq⟩ := numLeaves_dict_mem _ _ hq
    simp only [List.mem_cons, List.not_mem_nil, or_false] at hkv2
    rcases hkv2 with h | h | h | h | h | h | h | h <;> subst h <;> dsimp only at hq
    · obtain rfl := eq_of_mem_num _ _ hq; exact absurd hneg (by norm_num)
    · obtain rfl := eq_of_mem_num _ _ hq; exact Or.inr (Or.inr rfl)
    · obtain rfl := eq_of_mem_num _ _ hq
      exact absurd hneg (by norm_num [galileo_ground_repeat])
    · obtain rfl := eq_of_mem_num _ _ hq
      exact absurd hneg (by norm_num [galileo_sun_arg_lat])
    · obtain rfl := eq_of_mem_num _ _ hq
      exact absurd hneg (by norm_num [galileo_draconitic])
    · exact absurd hneg (not_lt.mpr
        (harmonics_leaves_nonneg galileo_draconitic (by norm_num [galileo_draconitic]) 15 q hq))
    · exact absurd hneg (not_lt.mpr
        (peaks_leaves_nonneg galileo_sun_arg_lat galileo_draconitic q hq))
    · exact absurd hneg (not_lt.mpr (signals_leaves_nonneg T_S_GALILEO q hq))
  · obtain ⟨kv2, hkv2, hq⟩ := numLeaves_dict_mem _ _ hq
    rw [List.mem_map] at hkv2
    obtain ⟨t, ht, rfl⟩ := hkv2
    dsimp only at hq
    obtain rfl := eq_of_mem_num _ _ hq
    exact absurd hneg (not_lt.mpr (tides_snd_nonneg t ht))
  · exact absurd hneg (not_lt.mpr
      (harmonics_leaves_nonneg 0.0027378 (by norm_num) 12 q hq))
  · exact absurd hneg (not_lt.mpr (aliases_leaves_nonneg q hq))

theorem catalogue_nonneg_except_nodal_witness :
    (-0.0001075 : ℚ) ∈ numLeaves create_gnss_frequencies ∧
    (-0.0001075 : ℚ) < 0 ∧
    ((-0.0001075 : ℚ) = -0.0001075 ∨ (-0.0001075 : ℚ) = -0.0000922 ∨
      (-0.0001075 : ℚ) = -0.0000726) :=
  ⟨neg_gps_nodal_mem, by norm_num,
   catalogue_nonneg_except_nodal _ neg_gps_nodal_mem (by norm_num)⟩

/-- C7: the GPS draconitic frequency stored in the catalogue is exactly the
literal constant `0.0028453`, and the alias table has exactly
`4 * (number of tides) = 32` entries (one alias against `1.0` and one
against each of the three constellations' ground-repeat frequencies, for
each of the 8 embedded tide constants). -/
theorem catalogue_draconitic_and_aliases :
    ((create_gnss_frequencies.lookup (.str "gps")).bind
      (fun d => d.lookup (.str "draconitic_frequency"))) = some (.num 0.0028453) ∧
    create_gnss_frequencies.lookup (.str "aliases") = some (.dict aliases) ∧
    aliases.length = 32 ∧ aliases.length = 4 * tides.length :=
  ⟨rfl, rfl, rfl, rfl⟩

theorem alias_matches_subdaily_witness :
    calculate_alias_frequency (5/2) 1 = calculate_subdaily_aliasing (5/2) 24 :=
  alias_matches_subdaily (5/2)
